import Mathlib

/-!
Verification of the geoson GeoJSON codec (headers `geoson/parser.hpp`,
`geoson/writter.hpp`, `geoson/types.hpp`, `geoson/geoson.hpp`).

Shallow embedding conventions:
* JSON documents (the external nlohmann::json collaborator) are modelled by
  the mutually inductive type `geoson.Json`; JSON numbers (C++ doubles) are
  modelled as exact rationals `ℚ`.
* C++ exceptions are modelled with `Except geoson.JErr`; the distinct
  nlohmann exception classes `out_of_range` / `type_error` and
  `std::runtime_error` (which carries a message) are the constructors of
  `geoson.JErr`.
* File input/output and JSON text parsing/pretty-printing are elided: the
  reader model starts from the parsed JSON tree, and the writer model
  returns the JSON tree that would be serialised, plus an `openable` flag
  standing for whether the output path can be opened.
* The external concord geometry library (WGS84 ↔ local tangent-plane
  transform) is modelled from the spec; see `wgsToEnu` / `enuToWgs`.
-/

namespace geoson

/- JSON value model for the external nlohmann::json collaborator.
Encoded as a mutual inductive (instead of nesting `List`) so that equality
is derivable and all recursions stay structural and kernel-reducible. -/
mutual

inductive Json where
  | null : Json
  | bool : Bool → Json
  | num : ℚ → Json
  | str : String → Json
  | arr : JsonArr → Json
  | obj : JsonObj → Json
  deriving DecidableEq

inductive JsonArr where
  | nil : JsonArr
  | cons : Json → JsonArr → JsonArr
  deriving DecidableEq

inductive JsonObj where
  | nil : JsonObj
  | cons : String → Json → JsonObj → JsonObj
  deriving DecidableEq

end

/-- Convert a JSON array node to a plain list of its elements. -/
def JsonArr.toList : JsonArr → List Json
  | .nil => []
  | .cons v rest => v :: rest.toList

/-- Build a JSON array node from a list of elements. -/
def JsonArr.ofList : List Json → JsonArr
  | [] => .nil
  | v :: rest => .cons v (JsonArr.ofList rest)

/-- Number of entries of a JSON array node. -/
def JsonArr.length : JsonArr → Nat
  | .nil => 0
  | .cons _ rest => rest.length + 1

/-- Index access into a JSON array node. -/
def JsonArr.get? : JsonArr → Nat → Option Json
  | .nil, _ => none
  | .cons v _, 0 => some v
  | .cons _ rest, n + 1 => rest.get? n

/-- Number of fields of a JSON object node. -/
def JsonObj.length : JsonObj → Nat
  | .nil => 0
  | .cons _ _ rest => rest.length + 1

/-- First value bound to a key in a JSON object node (nlohmann `find`). -/
def JsonObj.find : JsonObj → String → Option Json
  | .nil, _ => none
  | .cons k v rest, key => if k = key then some v else rest.find key

/-- Values of a JSON object node, in entry order. -/
def JsonObj.values : JsonObj → List Json
  | .nil => []
  | .cons _ v rest => v :: rest.values

/-- Field lookup on a JSON value: `some` only for objects that hold the key
(nlohmann `contains` + `operator[]` read access). -/
def Json.find? : Json → String → Option Json
  | .obj o, key => o.find key
  | _, _ => none

/-- nlohmann `contains`. -/
def Json.containsKey (j : Json) (key : String) : Bool :=
  (j.find? key).isSome

/-- nlohmann `is_object`. -/
def Json.isObj : Json → Bool
  | .obj _ => true
  | _ => false

/-- nlohmann `is_string`. -/
def Json.isStr : Json → Bool
  | .str _ => true
  | _ => false

/-- nlohmann `is_number` (all numeric kinds are one `num` constructor here). -/
def Json.isNum : Json → Bool
  | .num _ => true
  | _ => false

/-- nlohmann `is_array`. -/
def Json.isArr : Json → Bool
  | .arr _ => true
  | _ => false

/-- nlohmann `is_null`. -/
def Json.isNull : Json → Bool
  | .null => true
  | _ => false

/-- nlohmann `size()`: 0 for null, element count for arrays, field count for
objects, 1 for the other primitives. -/
def Json.size : Json → Nat
  | .null => 0
  | .arr a => a.length
  | .obj o => o.length
  | _ => 1

/-- Range-`for` iteration over a JSON value (nlohmann iteration): elements of
an array, values of an object, nothing for null, the value itself for the
remaining primitives. -/
def Json.elements : Json → List Json
  | .null => []
  | .arr a => a.toList
  | .obj o => o.values
  | .bool b => [.bool b]
  | .num q => [.num q]
  | .str s => [.str s]

/- Structural size measure used as recursion fuel for `parseGeometry`
(kept computable, unlike the derived `SizeOf` of a mutual inductive). -/
mutual

def Json.fuelSize : Json → Nat
  | .null => 1
  | .bool _ => 1
  | .num _ => 1
  | .str _ => 1
  | .arr a => a.fuelSize + 1
  | .obj o => o.fuelSize + 1

def JsonArr.fuelSize : JsonArr → Nat
  | .nil => 1
  | .cons v rest => v.fuelSize + rest.fuelSize + 1

def JsonObj.fuelSize : JsonObj → Nat
  | .nil => 1
  | .cons _ v rest => v.fuelSize + rest.fuelSize + 1

end

/-- Exception model: nlohmann's `out_of_range` and `type_error` classes, the
modelled `invalid_iterator` raised by `items()` on a non-structured value,
and `std::runtime_error` carrying its exact message. -/
inductive JErr where
  | outOfRange : JErr
  | typeError : JErr
  | invalidIterator : JErr
  | runtimeError : String → JErr
  | fuelOut : JErr
  deriving DecidableEq

instance {ε α : Type} [DecidableEq ε] [DecidableEq α] : DecidableEq (Except ε α) :=
  fun a b =>
  match a, b with
  | .ok x, .ok y =>
    if h : x = y then .isTrue (by rw [h]) else .isFalse (fun hh => by cases hh; exact h rfl)
  | .error e, .error f =>
    if h : e = f then .isTrue (by rw [h]) else .isFalse (fun hh => by cases hh; exact h rfl)
  | .ok _, .error _ => .isFalse (fun h => by cases h)
  | .error _, .ok _ => .isFalse (fun h => by cases h)

/-- nlohmann `at(size_type)`: `type_error` on a non-array, `out_of_range`
past the end. -/
def jAtIdx (j : Json) (i : Nat) : Except JErr Json :=
  match j with
  | .arr a =>
    match a.get? i with
    | some v => .ok v
    | none => .error .outOfRange
  | _ => .error .typeError

/-- nlohmann `at(key)`: `type_error` on a non-object, `out_of_range` for a
missing key. -/
def jAtKey (j : Json) (key : String) : Except JErr Json :=
  match j with
  | .obj o =>
    match o.find key with
    | some v => .ok v
    | none => .error .outOfRange
  | _ => .error .typeError

/-- nlohmann `get<double>()`: `type_error` unless the value is a number. -/
def getNum (j : Json) : Except JErr ℚ :=
  match j with
  | .num q => .ok q
  | _ => .error .typeError

/-- nlohmann `get<std::string>()`: `type_error` unless the value is a string. -/
def getStr (j : Json) : Except JErr String :=
  match j with
  | .str s => .ok s
  | _ => .error .typeError

/-- nlohmann `value(key, default)`: on an object, the key's value or the
default; `type_error` on anything else. -/
def jValueD (j : Json) (key : String) (dflt : Json) : Except JErr Json :=
  match j with
  | .obj o =>
    match o.find key with
    | some v => .ok v
    | none => .ok dflt
  | _ => .error .typeError

/-- Modelled from the spec (§6 collaborator interfaces): concord's value
types. `Datum` is the reference geographic point (lat, lon, alt). -/
structure Datum where
  lat : ℚ
  lon : ℚ
  alt : ℚ
  deriving DecidableEq

/-- Modelled from the spec: concord's geographic coordinate triple. -/
structure WGSCoord where
  lat : ℚ
  lon : ℚ
  alt : ℚ
  deriving DecidableEq

/-- Modelled from the spec: concord's roll/pitch/yaw value type. -/
structure Euler where
  roll : ℚ
  pitch : ℚ
  yaw : ℚ
  deriving DecidableEq

/-- Modelled from the spec: concord's local Cartesian point (`concord::Point`
stores East-North-Up x, y, z computed at construction). -/
structure Point where
  x : ℚ
  y : ℚ
  z : ℚ
  deriving DecidableEq

/-- Modelled from the spec (§4.3): concord's geographic→local transform.
The spec's contract is only that the datum maps to the origin and that the
transform is the (approximate) inverse of the companion local→geographic
map; it is modelled here as the exact unit-scale tangent-plane translation,
which satisfies that contract. The real implementation differs by scale and
curvature factors that none of the verified claims depend on. -/
def wgsToEnu (w : WGSCoord) (d : Datum) : Point :=
  ⟨w.lon - d.lon, w.lat - d.lat, w.alt - d.alt⟩

/-- Modelled from the spec (§4.6): concord's local→geographic transform, the
exact inverse of `wgsToEnu`. -/
def enuToWgs (p : Point) (d : Datum) : WGSCoord :=
  ⟨p.y + d.lat, p.x + d.lon, p.z + d.alt⟩

/-- Round-trip of the modelled external transform pair (the collaborator
contract the spec states in §4.3). -/
theorem enuToWgs_wgsToEnu (w : WGSCoord) (d : Datum) :
    enuToWgs (wgsToEnu w d) d = w := by
  simp [enuToWgs, wgsToEnu]

/-- Datum-to-origin property of the modelled external transform (§4.3). -/
theorem wgsToEnu_datum (d : Datum) :
    wgsToEnu ⟨d.lat, d.lon, d.alt⟩ d = ⟨0, 0, 0⟩ := by
  simp [wgsToEnu]

/-- CRS tag (`geoson::CRS` in types.hpp). -/
inductive CRS where
  | WGS : CRS
  | ENU : CRS
  deriving DecidableEq

/-- Internal geometry union (`geoson::Geometry` in types.hpp): Point, Line,
Path or Polygon over local-frame points. -/
inductive Geometry where
  | point : Point → Geometry
  | line : Point → Point → Geometry
  | path : List Point → Geometry
  | polygon : List Point → Geometry
  deriving DecidableEq

/-- `geoson::Feature` (types.hpp): a geometry plus a flat string→string
property map (the unordered_map is modelled as an association list in
insertion order). There is no id member. -/
structure Feature where
  geometry : Geometry
  properties : List (String × String)
  deriving DecidableEq

/-- `geoson::FeatureCollection` (types.hpp). -/
structure FeatureCollection where
  crs : CRS
  datum : Datum
  heading : Euler
  features : List Feature
  deriving DecidableEq

/-- `geoson::parseCRS` (parser.hpp 118-124): fixed, case-sensitive lookup
table; anything else throws `std::runtime_error` with the exact message. -/
def parseCRS (s : String) : Except JErr CRS :=
  if s = "EPSG:4326" ∨ s = "WGS84" ∨ s = "WGS" then .ok .WGS
  else if s = "ENU" ∨ s = "ECEF" then .ok .ENU
  else .error (.runtimeError ("Unknown CRS string: " ++ s))

/-- `geoson::parsePoint` (parser.hpp 61-66): read `[lon, lat]` with optional
third altitude element (default 0.0), then construct the local-frame point
from the geographic coordinate and the datum. -/
def parsePoint (coords : Json) (datum : Datum) : Except JErr Point :=
  (jAtIdx coords 0).bind fun c0 =>
  (getNum c0).bind fun lon =>
  (jAtIdx coords 1).bind fun c1 =>
  (getNum c1).bind fun lat =>
  (if 2 < coords.size then (jAtIdx coords 2).bind getNum else .ok 0).bind fun alt =>
  .ok (wgsToEnu ⟨lat, lon, alt⟩ datum)

/-- Sequential decoding of a list of coordinate tuples (the push_back loops
of parser.hpp 68-86); the first exception aborts the whole loop. -/
def parsePoints (l : List Json) (datum : Datum) : Except JErr (List Point) :=
  match l with
  | [] => .ok []
  | c :: rest =>
    (parsePoint c datum).bind fun p =>
    (parsePoints rest datum).bind fun ps =>
    .ok (p :: ps)

/-- `geoson::parseLineString` (parser.hpp 68-77): exactly two points give a
`Line`, anything else gives a `Path`. -/
def parseLineString (coords : Json) (datum : Datum) : Except JErr Geometry :=
  (parsePoints coords.elements datum).bind fun pts =>
  match pts with
  | [a, b] => .ok (.line a b)
  | _ => .ok (.path pts)

/-- `geoson::parsePolygon` (parser.hpp 79-86): decode only the first ring
`coordinates[0]` (via `at(0)`, so an empty rings array raises out_of_range). -/
def parsePolygon (coords : Json) (datum : Datum) : Except JErr (List Point) :=
  (jAtIdx coords 0).bind fun ring =>
  parsePoints ring.elements datum

/-- Per-element `parseLineString` loop of the MultiLineString branch. -/
def parseLineStrings (l : List Json) (datum : Datum) : Except JErr (List Geometry) :=
  match l with
  | [] => .ok []
  | c :: rest =>
    (parseLineString c datum).bind fun g =>
    (parseLineStrings rest datum).bind fun gs =>
    .ok (g :: gs)

/-- Per-element `parsePolygon` loop of the MultiPolygon branch. -/
def parsePolygons (l : List Json) (datum : Datum) : Except JErr (List (List Point)) :=
  match l with
  | [] => .ok []
  | c :: rest =>
    (parsePolygon c datum).bind fun g =>
    (parsePolygons rest datum).bind fun gs =>
    .ok (g :: gs)

/-- Decode each sub-geometry with `f` and concatenate the results in order
(the GeometryCollection loop of parser.hpp 107-111). -/
def concatMapExcept (f : Json → Except JErr (List Geometry)) :
    List Json → Except JErr (List Geometry)
  | [] => .ok []
  | g :: rest =>
    (f g).bind fun gs =>
    (concatMapExcept f rest).bind fun more =>
    .ok (gs ++ more)

/-- `geoson::parseGeometry` (parser.hpp 88-114) with explicit recursion fuel
(the C++ recursion through GeometryCollection is bounded by the height of
the JSON tree; `parseGeometry` below instantiates the fuel with
`Json.fuelSize`, which `parseGeometryF_fuelSize` proves sufficient, so the
`fuelOut` branch is unreachable from the wrapper). -/
def parseGeometryF : Nat → Json → Datum → Except JErr (List Geometry)
  | 0, _, _ => .error .fuelOut
  | fuel + 1, geom, datum =>
    (jAtKey geom "type").bind fun tJ =>
    (getStr tJ).bind fun t =>
    if t = "Point" then
      (jAtKey geom "coordinates").bind fun c =>
      (parsePoint c datum).bind fun p =>
      .ok [.point p]
    else if t = "LineString" then
      (jAtKey geom "coordinates").bind fun c =>
      (parseLineString c datum).bind fun g =>
      .ok [g]
    else if t = "Polygon" then
      (jAtKey geom "coordinates").bind fun c =>
      (parsePolygon c datum).bind fun pts =>
      .ok [.polygon pts]
    else if t = "MultiPoint" then
      (jAtKey geom "coordinates").bind fun c =>
      (parsePoints c.elements datum).bind fun ps =>
      .ok (ps.map .point)
    else if t = "MultiLineString" then
      (jAtKey geom "coordinates").bind fun c =>
      parseLineStrings c.elements datum
    else if t = "MultiPolygon" then
      (jAtKey geom "coordinates").bind fun c =>
      (parsePolygons c.elements datum).bind fun ps =>
      .ok (ps.map .polygon)
    else if t = "GeometryCollection" then
      (jAtKey geom "geometries").bind fun subs =>
      concatMapExcept (fun g => parseGeometryF fuel g datum) subs.elements
    else .ok []

/-- `geoson::parseGeometry` (parser.hpp 88-114). -/
def parseGeometry (geom : Json) (datum : Datum) : Except JErr (List Geometry) :=
  parseGeometryF geom.fuelSize geom datum

/-- Integer rationals print as their integer; the exact nlohmann shortest
round-trip text of a non-integer double is not modelled (no verified claim
depends on number formatting). -/
def ratDump (q : ℚ) : String :=
  if q.den = 1 then toString q.num else toString q.num ++ "/" ++ toString q.den

/- nlohmann `dump()`: compact JSON text of a value (used by parser.hpp 56
to stringify non-string property values). String escaping is not modelled
(no verified claim feeds control characters through properties). -/
mutual

def Json.dump : Json → String
  | .null => "null"
  | .bool b => if b then "true" else "false"
  | .num q => ratDump q
  | .str s => "\"" ++ s ++ "\""
  | .arr a => "[" ++ a.dumpElems ++ "]"
  | .obj o => "\x7b" ++ o.dumpFields ++ "\x7d"

def JsonArr.dumpElems : JsonArr → String
  | .nil => ""
  | .cons v .nil => v.dump
  | .cons v rest => v.dump ++ "," ++ rest.dumpElems

def JsonObj.dumpFields : JsonObj → String
  | .nil => ""
  | .cons k v .nil => "\"" ++ k ++ "\":" ++ v.dump
  | .cons k v rest => "\"" ++ k ++ "\":" ++ v.dump ++ "," ++ rest.dumpFields

end

/-- String value a JSON property value maps to (parser.hpp 52-57): strings
verbatim, anything else its JSON text via `dump`. -/
def propVal (v : Json) : String :=
  match v with
  | .str s => s
  | _ => v.dump

/-- `unordered_map` insert-or-assign, modelled on an association list that
keeps the first-insertion position of each key. -/
def propsSet (m : List (String × String)) (k : String) (v : String) :
    List (String × String) :=
  match m with
  | [] => [(k, v)]
  | (k', v') :: rest => if k' = k then (k, v) :: rest else (k', v') :: propsSet rest k v

/-- Field loop of `geoson::parseProperties` over an object's entries. -/
def parsePropertiesObj (o : JsonObj) (m : List (String × String)) :
    List (String × String) :=
  match o with
  | .nil => m
  | .cons k v rest => parsePropertiesObj rest (propsSet m k (propVal v))

/-- Element loop of `geoson::parseProperties` over an array (nlohmann
`items()` keys an array by decimal indices). -/
def parsePropertiesArr (l : List Json) (i : Nat) (m : List (String × String)) :
    List (String × String) :=
  match l with
  | [] => m
  | v :: rest => parsePropertiesArr rest (i + 1) (propsSet m (toString i) (propVal v))

/-- `geoson::parseProperties` (parser.hpp 49-59): flatten a properties value
into a string→string map via `items()`. Iterating `items()` of a
non-structured, non-null value dereferences an invalid key and is modelled
as nlohmann `invalid_iterator`. -/
def parseProperties (props : Json) : Except JErr (List (String × String)) :=
  match props with
  | .obj o => .ok (parsePropertiesObj o [])
  | .arr a => .ok (parsePropertiesArr a.toList 0 [])
  | .null => .ok []
  | _ => .error .invalidIterator

namespace op

/-- `geoson::op::ReadFeatureCollection` (parser.hpp 19-44), with the file
open/read and JSON text parsing elided: normalize the parsed root value to
one FeatureCollection-shaped object. The synthesized objects keep nlohmann's
sorted field order. -/
def ReadFeatureCollection (j : Json) : Except JErr Json :=
  match j with
  | .obj o =>
    match o.find "type" with
    | some (.str t) =>
      if t = "FeatureCollection" then .ok j
      else if t = "Feature" then
        .ok (.obj (.cons "features" (.arr (.cons j .nil))
             (.cons "type" (.str "FeatureCollection") .nil)))
      else
        .ok (.obj (.cons "features"
              (.arr (.cons (.obj (.cons "geometry" j
                     (.cons "properties" (.obj .nil)
                     (.cons "type" (.str "Feature") .nil)))) .nil))
             (.cons "type" (.str "FeatureCollection") .nil)))
    | _ =>
      .error (.runtimeError
        "geoson::ReadFeatureCollection(): top-level object has no string 'type' field")
  | _ =>
    .error (.runtimeError
      "geoson::ReadFeatureCollection(): top-level object has no string 'type' field")

end op

/-- nlohmann `operator[]` read of an in-bounds array index (used on the
datum array after its length was checked; out of bounds gives `null` here,
unreachable from `headerResolve`). -/
def jIdxD (a : JsonArr) (i : Nat) : Json :=
  (a.get? i).getD .null

/-- Header validation and extraction steps of `geoson::ReadFeatureCollection`
(parser.hpp 131-147): the four presence/shape checks with their exact
`std::runtime_error` messages, then CRS table lookup, datum numbers and
heading extraction, in source order. -/
def headerResolve (fcj : Json) : Except JErr (CRS × Datum × Euler) :=
  match fcj.find? "properties" with
  | some (.obj P) =>
    match P.find "crs" with
    | some (.str crsS) =>
      match P.find "datum" with
      | some (.arr A) =>
        if A.length < 3 then
          .error (.runtimeError "'properties' missing array 'datum' of ≥3 numbers")
        else
          match P.find "heading" with
          | some (.num yaw) =>
            (parseCRS crsS).bind fun crsVal =>
            (getNum (jIdxD A 0)).bind fun lat =>
            (getNum (jIdxD A 1)).bind fun lon =>
            (getNum (jIdxD A 2)).bind fun alt =>
            .ok (crsVal, ⟨lat, lon, alt⟩, ⟨0, 0, yaw⟩)
          | _ => .error (.runtimeError "'properties' missing numeric 'heading'")
      | _ => .error (.runtimeError "'properties' missing array 'datum' of ≥3 numbers")
    | _ => .error (.runtimeError "'properties' missing string 'crs'")
  | _ => .error (.runtimeError "missing top-level 'properties'")

/-- Per-feature body of the feature loop (parser.hpp 155-162): skip a null
or absent geometry, otherwise decode the geometry and fan out one `Feature`
per decoded variant, each with an identical copy of the properties map. -/
def processFeature (feat : Json) (datum : Datum) : Except JErr (List Feature) :=
  (jValueD feat "geometry" .null).bind fun g =>
  if g.isNull then .ok []
  else
    (parseGeometry g datum).bind fun geoms =>
    (jValueD feat "properties" (.obj .nil)).bind fun props =>
    (parseProperties props).bind fun m =>
    .ok (geoms.map fun gm => ⟨gm, m⟩)

/-- The feature loop of parser.hpp 155-162 over the normalized collection's
`features`, in source order. -/
def processFeatures (feats : List Json) (datum : Datum) : Except JErr (List Feature) :=
  match feats with
  | [] => .ok []
  | f :: rest =>
    (processFeature f datum).bind fun fs =>
    (processFeatures rest datum).bind fun more =>
    .ok (fs ++ more)

/-- `geoson::ReadFeatureCollection` (parser.hpp 128-165), from the parsed
JSON root (file open/read elided): normalize the root, resolve the header,
then decode the features; a missing `features` key reads as `null`
(nlohmann `operator[]` insertion) and iterates as the empty range. -/
def ReadFeatureCollection (j : Json) : Except JErr FeatureCollection :=
  (op.ReadFeatureCollection j).bind fun fcj =>
  (headerResolve fcj).bind fun hdr =>
  (processFeatures ((fcj.find? "features").getD .null).elements hdr.2.1).bind fun feats =>
  .ok ⟨hdr.1, hdr.2.1, hdr.2.2, feats⟩

/-- Coordinate emission helper of `geoson::geometryToJson` (writter.hpp
14-24): ENU flavor emits the stored local x, y, z directly; WGS flavor
converts back to geographic and emits `[lon, lat, alt]`. -/
def ptCoords (crs : CRS) (datum : Datum) (p : Point) : Json :=
  match crs with
  | .ENU => .arr (.cons (.num p.x) (.cons (.num p.y) (.cons (.num p.z) .nil)))
  | .WGS =>
    .arr (.cons (.num (enuToWgs p datum).lon)
         (.cons (.num (enuToWgs p datum).lat)
         (.cons (.num (enuToWgs p datum).alt) .nil)))

/-- `geoson::geometryToJson` (writter.hpp 12-54): the four stored variants
map back to Point / LineString / LineString / single-ring Polygon. -/
def geometryToJson (geom : Geometry) (datum : Datum) (crs : CRS) : Json :=
  match geom with
  | .point p =>
    .obj (.cons "coordinates" (ptCoords crs datum p)
         (.cons "type" (.str "Point") .nil))
  | .line a b =>
    .obj (.cons "coordinates" (.arr (.cons (ptCoords crs datum a)
                                    (.cons (ptCoords crs datum b) .nil)))
         (.cons "type" (.str "LineString") .nil))
  | .path pts =>
    .obj (.cons "coordinates" (.arr (JsonArr.ofList (pts.map (ptCoords crs datum))))
         (.cons "type" (.str "LineString") .nil))
  | .polygon pts =>
    .obj (.cons "coordinates"
           (.arr (.cons (.arr (JsonArr.ofList (pts.map (ptCoords crs datum)))) .nil))
         (.cons "type" (.str "Polygon") .nil))

/-- Insertion into an nlohmann object (std::map keeps keys sorted). -/
def JsonObj.setSorted (o : JsonObj) (k : String) (v : Json) : JsonObj :=
  match o with
  | .nil => .cons k v .nil
  | .cons k' v' rest =>
    if k = k' then .cons k v rest
    else if k < k' then .cons k v (.cons k' v' rest)
    else .cons k' v' (rest.setSorted k v)

/-- Property-map emission loop of `geoson::featureToJson` (writter.hpp
61-62): each entry is assigned into the sorted JSON object. -/
def propsToJson (m : List (String × String)) (o : JsonObj) : JsonObj :=
  match m with
  | [] => o
  | (k, v) :: rest => propsToJson rest (o.setSorted k (.str v))

/-- `geoson::featureToJson` (writter.hpp 57-65). -/
def featureToJson (f : Feature) (datum : Datum) (crs : CRS) : Json :=
  .obj (.cons "geometry" (geometryToJson f.geometry datum crs)
       (.cons "properties" (.obj (propsToJson f.properties .nil))
       (.cons "type" (.str "Feature") .nil)))

/-- Canonical CRS output string (writter.hpp 78-85). -/
def crsString (crs : CRS) : String :=
  match crs with
  | .WGS => "EPSG:4326"
  | .ENU => "ENU"

/-- Modelled from the spec (§4.6): the serializer behind the three-argument
`WriteFeatureCollection` overload that geoson.hpp and the test suite call
but whose definition is not among the repository's files under inspection —
`toJson` with an explicitly requested output flavor instead of the stored
tag: the top-level `crs` string and every coordinate follow the requested
flavor. -/
def toJsonWith (fc : FeatureCollection) (crs : CRS) : Json :=
  .obj (.cons "features"
         (.arr (JsonArr.ofList (fc.features.map fun f => featureToJson f fc.datum crs)))
       (.cons "properties"
         (.obj (.cons "crs" (.str (crsString crs))
               (.cons "datum" (.arr (.cons (.num fc.datum.lat)
                                    (.cons (.num fc.datum.lon)
                                    (.cons (.num fc.datum.alt) .nil))))
               (.cons "heading" (.num fc.heading.yaw) .nil))))
       (.cons "type" (.str "FeatureCollection") .nil)))

/-- `geoson::toJson` (writter.hpp 68-100): serialize the collection using
its stored CRS tag for both the `crs` string and the coordinate flavor. -/
def toJson (fc : FeatureCollection) : Json :=
  .obj (.cons "features"
         (.arr (JsonArr.ofList (fc.features.map fun f => featureToJson f fc.datum fc.crs)))
       (.cons "properties"
         (.obj (.cons "crs" (.str (crsString fc.crs))
               (.cons "datum" (.arr (.cons (.num fc.datum.lat)
                                    (.cons (.num fc.datum.lon)
                                    (.cons (.num fc.datum.alt) .nil))))
               (.cons "heading" (.num fc.heading.yaw) .nil))))
       (.cons "type" (.str "FeatureCollection") .nil)))

/-- `geoson::WriteFeatureCollection` (writter.hpp 103-109): serialize, then
fail with the exact `std::runtime_error` message when the output path cannot
be opened. The stream/pretty-print step is elided: the model returns the
JSON tree that would be written. -/
def WriteFeatureCollection (fc : FeatureCollection) (outPath : String)
    (openable : Bool) : Except JErr Json :=
  if openable then .ok (toJson fc)
  else .error (.runtimeError ("Cannot open for write: " ++ outPath))

/-- Modelled from the spec (§4.6, §6): the three-argument
`WriteFeatureCollection` overload declared by geoson.hpp's `write` alias and
exercised by the test suite; it writes with the explicitly requested output
flavor and fails the same way on an unopenable path. -/
def WriteFeatureCollectionWith (fc : FeatureCollection) (outPath : String)
    (outputCrs : CRS) (openable : Bool) : Except JErr Json :=
  if openable then .ok (toJsonWith fc outputCrs)
  else .error (.runtimeError ("Cannot open for write: " ++ outPath))

/-- `geoson::write(fc, path)` (geoson.hpp 21-23). -/
def write (fc : FeatureCollection) (outPath : String) (openable : Bool) :
    Except JErr Json :=
  WriteFeatureCollection fc outPath openable

/-- `geoson::write(fc, path, crs)` (geoson.hpp 14-16). -/
def writeWith (fc : FeatureCollection) (outPath : String) (outputCrs : CRS)
    (openable : Bool) : Except JErr Json :=
  WriteFeatureCollectionWith fc outPath outputCrs openable

/-- Shape of the FeatureCollection synthesized around a bare Feature by the
document normalizer, named for use in statements about parser.hpp 37-39. -/
def featureWrap (j : Json) : Json :=
  .obj (.cons "features" (.arr (.cons j .nil))
       (.cons "type" (.str "FeatureCollection") .nil))

/-- Shape of the FeatureCollection synthesized around a bare geometry by the
document normalizer (one Feature with empty properties, parser.hpp 41-43). -/
def geometryWrap (j : Json) : Json :=
  .obj (.cons "features"
         (.arr (.cons (.obj (.cons "geometry" j
                (.cons "properties" (.obj .nil)
                (.cons "type" (.str "Feature") .nil)))) .nil))
       (.cons "type" (.str "FeatureCollection") .nil))

/-- Defect classes of the document header, as checked in order by
parser.hpp 131-140. -/
inductive HeaderDefect where
  | props : HeaderDefect
  | crs : HeaderDefect
  | datum : HeaderDefect
  | heading : HeaderDefect
  deriving DecidableEq

/-- Exact `std::runtime_error` message of each header defect class. -/
def headerMsg : HeaderDefect → String
  | .props => "missing top-level 'properties'"
  | .crs => "'properties' missing string 'crs'"
  | .datum => "'properties' missing array 'datum' of ≥3 numbers"
  | .heading => "'properties' missing numeric 'heading'"

/-- Classifier for the header checks of parser.hpp 131-140, in the source's
precedence order: `some c` when the normalized document has header defect
class `c`, `none` when all four checks pass. -/
def headerDefectClass (n : Json) : Option HeaderDefect :=
  match n.find? "properties" with
  | some (.obj P) =>
    match P.find "crs" with
    | some (.str _) =>
      match P.find "datum" with
      | some (.arr A) =>
        if A.length < 3 then some .datum
        else
          match P.find "heading" with
          | some (.num _) => none
          | _ => some .heading
      | _ => some .datum
    | _ => some .crs
  | _ => some .props

/-- Replace (or insert) the `features` field of a document, leaving every
other field unchanged; used to state that header failures do not depend on
the features content. -/
def setFeatures (j : Json) (fs : Json) : Json :=
  match j with
  | .obj o => .obj (o.setSorted "features" fs)
  | j => j

/-- Points stored by a geometry variant, in order. -/
def geomPoints : Geometry → List Point
  | .point p => [p]
  | .line a b => [a, b]
  | .path pts => pts
  | .polygon pts => pts

/-- Componentwise absolute tolerance on local-frame points. -/
def pointWithin (t : ℚ) (p q : Point) : Prop :=
  |p.x - q.x| ≤ t ∧ |p.y - q.y| ≤ t ∧ |p.z - q.z| ≤ t

/-- Every point of every feature of `u` is within `t` of the corresponding
point of `v` (and the shapes correspond). -/
def coordsWithin (t : ℚ) (u v : FeatureCollection) : Prop :=
  List.Forall₂ (fun f g => List.Forall₂ (pointWithin t)
    (geomPoints f.geometry) (geomPoints g.geometry)) u.features v.features

/-- Example document for the cross-flavor experiment: WGS flavor, datum
(52, 5, 100), one Point feature lying exactly on the datum. -/
def crossDoc : Json :=
  .obj (.cons "features"
         (.arr (.cons (.obj (.cons "geometry"
                  (.obj (.cons "coordinates"
                          (.arr (.cons (.num 5) (.cons (.num 52) (.cons (.num 100) .nil))))
                        (.cons "type" (.str "Point") .nil)))
                (.cons "properties" (.obj .nil)
                (.cons "type" (.str "Feature") .nil)))) .nil))
       (.cons "properties"
         (.obj (.cons "crs" (.str "EPSG:4326")
               (.cons "datum" (.arr (.cons (.num 52) (.cons (.num 5) (.cons (.num 100) .nil))))
               (.cons "heading" (.num 0) .nil))))
       (.cons "type" (.str "FeatureCollection") .nil)))

/-- Decoded model of `crossDoc`: the datum point sits at the local origin. -/
def crossFC : FeatureCollection :=
  ⟨.WGS, ⟨52, 5, 100⟩, ⟨0, 0, 0⟩, [⟨.point ⟨0, 0, 0⟩, []⟩]⟩

/-- What re-decoding the ENU-flavored output of `crossFC` actually yields:
the local coordinates [0,0,0] are re-read as geographic lon/lat/alt and
re-projected against the datum. -/
def crossFCEnu : FeatureCollection :=
  ⟨.ENU, ⟨52, 5, 100⟩, ⟨0, 0, 0⟩, [⟨.point ⟨-5, -52, -100⟩, []⟩]⟩

/-- Example document for the ENU round-trip experiment: ENU flavor, datum
(40, 10, 0), one Point feature. -/
def enuDoc : Json :=
  .obj (.cons "features"
         (.arr (.cons (.obj (.cons "geometry"
                  (.obj (.cons "coordinates"
                          (.arr (.cons (.num 11) (.cons (.num 41) (.cons (.num 7) .nil))))
                        (.cons "type" (.str "Point") .nil)))
                (.cons "properties" (.obj .nil)
                (.cons "type" (.str "Feature") .nil)))) .nil))
       (.cons "properties"
         (.obj (.cons "crs" (.str "ENU")
               (.cons "datum" (.arr (.cons (.num 40) (.cons (.num 10) (.cons (.num 0) .nil))))
               (.cons "heading" (.num 2) .nil))))
       (.cons "type" (.str "FeatureCollection") .nil)))

/-- Decoded model of `enuDoc` (the parser reads the tuple as lon/lat/alt
regardless of the ENU tag). -/
def enuFC : FeatureCollection :=
  ⟨.ENU, ⟨40, 10, 0⟩, ⟨0, 0, 2⟩, [⟨.point ⟨1, 1, 7⟩, []⟩]⟩

/-- What re-decoding the default (ENU-flavored) output of `enuFC` yields. -/
def enuFCBack : FeatureCollection :=
  ⟨.ENU, ⟨40, 10, 0⟩, ⟨0, 0, 2⟩, [⟨.point ⟨-9, -39, 7⟩, []⟩]⟩

/-- Normalized document whose header lacks `datum` (defect witness input). -/
def defectDoc : Json :=
  .obj (.cons "properties" (.obj (.cons "crs" (.str "WGS") .nil))
       (.cons "type" (.str "FeatureCollection") .nil))

/-- Arbitrary replacement features content for the defect witness (a
geometry that would itself fail to decode, showing it is never reached). -/
def defectFill : Json :=
  .arr (.cons (.obj (.cons "geometry"
         (.obj (.cons "coordinates" (.str "garbage")
               (.cons "type" (.str "Point") .nil)))
       (.cons "properties" (.obj .nil)
       (.cons "type" (.str "Feature") .nil)))) .nil)

/-- Root-shape witness input: an already canonical FeatureCollection. -/
def rootFCDoc : Json :=
  .obj (.cons "type" (.str "FeatureCollection") .nil)

/-- Root-shape witness input: a bare Feature object. -/
def rootFeatureDoc : Json :=
  .obj (.cons "id" (.num 7) (.cons "type" (.str "Feature") .nil))

/-- Root-shape witness input: a bare geometry object. -/
def rootGeomDoc : Json :=
  .obj (.cons "coordinates" (.arr (.cons (.num 5) (.cons (.num 52) .nil)))
       (.cons "type" (.str "Point") .nil))

/-- LineString coordinates with exactly two tuples. -/
def lineCoords : Json :=
  .arr (.cons (.arr (.cons (.num 1) (.cons (.num 2) .nil)))
       (.cons (.arr (.cons (.num 3) (.cons (.num 4) .nil))) .nil))

/-- LineString coordinates with three tuples. -/
def pathCoords : Json :=
  .arr (.cons (.arr (.cons (.num 1) (.cons (.num 2) .nil)))
       (.cons (.arr (.cons (.num 3) (.cons (.num 4) .nil)))
       (.cons (.arr (.cons (.num 5) (.cons (.num 6) .nil))) .nil)))

/-- Datum used by the line/path and fan-out witnesses. -/
def exDatum : Datum := ⟨7, 8, 9⟩

/-- Raw feature whose geometry is JSON null (skip witness). -/
def skipFeat : Json :=
  .obj (.cons "geometry" .null
       (.cons "properties" (.obj (.cons "name" (.str "skipped") .nil))
       (.cons "type" (.str "Feature") .nil)))

/-- Three-tuple MultiPoint geometry used by the fan-out witness. -/
def fanGeom : Json :=
  .obj (.cons "coordinates"
         (.arr (.cons (.arr (.cons (.num 1) (.cons (.num 2) .nil)))
               (.cons (.arr (.cons (.num 3) (.cons (.num 4) .nil)))
               (.cons (.arr (.cons (.num 5) (.cons (.num 6) .nil))) .nil))))
       (.cons "type" (.str "MultiPoint") .nil))

/-- Raw feature with a three-tuple MultiPoint geometry and one property. -/
def fanFeat : Json :=
  .obj (.cons "geometry" fanGeom
       (.cons "properties" (.obj (.cons "name" (.str "fan") .nil))
       (.cons "type" (.str "Feature") .nil)))

/-- Document whose single feature carries an `id` field. -/
def idDoc : Json :=
  .obj (.cons "features"
         (.arr (.cons (.obj (.cons "geometry"
                  (.obj (.cons "coordinates"
                          (.arr (.cons (.num 2) (.cons (.num 3) .nil)))
                        (.cons "type" (.str "Point") .nil)))
                (.cons "id" (.str "abc")
                (.cons "properties" (.obj (.cons "name" (.str "x") .nil))
                (.cons "type" (.str "Feature") .nil))))) .nil))
       (.cons "properties"
         (.obj (.cons "crs" (.str "WGS")
               (.cons "datum" (.arr (.cons (.num 1) (.cons (.num 1) (.cons (.num 0) .nil))))
               (.cons "heading" (.num 0) .nil))))
       (.cons "type" (.str "FeatureCollection") .nil)))

/-- The same document with the `id` field removed. -/
def noIdDoc : Json :=
  .obj (.cons "features"
         (.arr (.cons (.obj (.cons "geometry"
                  (.obj (.cons "coordinates"
                          (.arr (.cons (.num 2) (.cons (.num 3) .nil)))
                        (.cons "type" (.str "Point") .nil)))
                (.cons "properties" (.obj (.cons "name" (.str "x") .nil))
                (.cons "type" (.str "Feature") .nil)))) .nil))
       (.cons "properties"
         (.obj (.cons "crs" (.str "WGS")
               (.cons "datum" (.arr (.cons (.num 1) (.cons (.num 1) (.cons (.num 0) .nil))))
               (.cons "heading" (.num 0) .nil))))
       (.cons "type" (.str "FeatureCollection") .nil)))

/-- Common decoded model of `idDoc` and `noIdDoc`: no trace of the id. -/
def idFC : FeatureCollection :=
  ⟨.WGS, ⟨1, 1, 0⟩, ⟨0, 0, 0⟩,
    [⟨.point (wgsToEnu ⟨3, 2, 0⟩ ⟨1, 1, 0⟩), [("name", "x")]⟩]⟩

/-- Header-only document without a `features` key. -/
def emptyDoc : Json :=
  .obj (.cons "properties"
         (.obj (.cons "crs" (.str "ECEF")
               (.cons "datum" (.arr (.cons (.num 1) (.cons (.num 2) (.cons (.num 3) .nil))))
               (.cons "heading" (.num 5) .nil))))
       (.cons "type" (.str "FeatureCollection") .nil))

/-- Fuel-size bound for an object field's value. -/
theorem JsonObj.find_fuelSize_le :
    ∀ {o : JsonObj} {k : String} {v : Json}, o.find k = some v →
      v.fuelSize ≤ o.fuelSize
  | .nil, _, _, h => by simp [JsonObj.find] at h
  | .cons k' v' rest, k, v, h => by
    rw [JsonObj.find] at h
    by_cases hk : k' = k
    · rw [if_pos hk] at h
      cases h
      simp [JsonObj.fuelSize]
      omega
    · rw [if_neg hk] at h
      have := JsonObj.find_fuelSize_le h
      simp [JsonObj.fuelSize]
      omega

/-- Fuel-size bound for an array element. -/
theorem JsonArr.mem_toList_fuelSize :
    ∀ {a : JsonArr} {x : Json}, x ∈ a.toList → x.fuelSize ≤ a.fuelSize
  | .nil, _, h => by simp [JsonArr.toList] at h
  | .cons v rest, x, h => by
    rw [JsonArr.toList] at h
    rcases List.mem_cons.mp h with h | h
    · subst h
      simp [JsonArr.fuelSize]
      omega
    · have := JsonArr.mem_toList_fuelSize h
      simp [JsonArr.fuelSize]
      omega

/-- Fuel-size bound for an object member value. -/
theorem JsonObj.mem_values_fuelSize :
    ∀ {o : JsonObj} {x : Json}, x ∈ o.values → x.fuelSize ≤ o.fuelSize
  | .nil, _, h => by simp [JsonObj.values] at h
  | .cons k v rest, x, h => by
    rw [JsonObj.values] at h
    rcases List.mem_cons.mp h with h | h
    · subst h
      simp [JsonObj.fuelSize]
      omega
    · have := JsonObj.mem_values_fuelSize h
      simp [JsonObj.fuelSize]
      omega

/-- Fuel-size bound for anything produced by range-`for` iteration. -/
theorem Json.mem_elements_fuelSize {j x : Json} (h : x ∈ j.elements) :
    x.fuelSize ≤ j.fuelSize := by
  cases j with
  | null => simp [Json.elements] at h
  | arr a =>
    rw [Json.elements] at h
    have := JsonArr.mem_toList_fuelSize h
    simp [Json.fuelSize]
    omega
  | obj o =>
    rw [Json.elements] at h
    have := JsonObj.mem_values_fuelSize h
    simp [Json.fuelSize]
    omega
  | bool b => rw [Json.elements] at h; simp at h; subst h; exact le_refl _
  | num q => rw [Json.elements] at h; simp at h; subst h; exact le_refl _
  | str s => rw [Json.elements] at h; simp at h; subst h; exact le_refl _

/-- Key access strictly shrinks the fuel size. -/
theorem jAtKey_fuelSize {j : Json} {k : String} {v : Json}
    (h : jAtKey j k = .ok v) : v.fuelSize < j.fuelSize := by
  cases j with
  | obj o =>
    rw [jAtKey] at h
    cases hf : o.find k with
    | none => rw [hf] at h; cases h
    | some w =>
      rw [hf] at h
      cases h
      have := JsonObj.find_fuelSize_le hf
      simp [Json.fuelSize]
      omega
  | null => cases h
  | bool b => cases h
  | num q => cases h
  | str s => cases h
  | arr a => cases h

/-- Every JSON value has positive fuel size. -/
theorem Json.fuelSize_pos (j : Json) : 0 < j.fuelSize := by
  cases j <;> simp [Json.fuelSize]

/-- `concatMapExcept` only looks at `f` on members of the list. -/
theorem concatMapExcept_congr {f g : Json → Except JErr (List Geometry)}
    {l : List Json} (h : ∀ x ∈ l, f x = g x) :
    concatMapExcept f l = concatMapExcept g l := by
  induction l with
  | nil => rfl
  | cons x rest ih =>
    rw [concatMapExcept, concatMapExcept, h x (List.mem_cons_self x rest),
      ih fun y hy => h y (List.mem_cons_of_mem x hy)]

/-- Fuel irrelevance: any two sufficient fuels give the same result, so the
`Json.fuelSize` fuel of `parseGeometry` models the unbounded C++ recursion
faithfully. -/
theorem parseGeometryF_fuel_irrel (n : Nat) :
    ∀ m geom datum, geom.fuelSize ≤ n → geom.fuelSize ≤ m →
      parseGeometryF n geom datum = parseGeometryF m geom datum := by
  induction n using Nat.strong_induction_on with
  | _ n ih =>
    intro m geom datum hn hm
    have hpos := Json.fuelSize_pos geom
    cases n with
    | zero => omega
    | succ n' =>
      cases m with
      | zero => omega
      | succ m' =>
        rw [parseGeometryF, parseGeometryF]
        cases hT : jAtKey geom "type" with
        | error e => rfl
        | ok tJ =>
          simp only [Except.bind]
          cases hS : getStr tJ with
          | error e => rfl
          | ok t =>
            by_cases hGC : t = "GeometryCollection"
            · subst hGC
              simp only [reduceIte]
              cases hG : jAtKey geom "geometries" with
              | error e => rfl
              | ok subs =>
                simp only [Except.bind]
                refine concatMapExcept_congr ?_
                intro x hx
                have hxs : x.fuelSize ≤ subs.fuelSize := Json.mem_elements_fuelSize hx
                have hsub : subs.fuelSize < geom.fuelSize := jAtKey_fuelSize hG
                exact ih n' (Nat.lt_succ_self n') m' x datum (by omega) (by omega)
            · simp only [if_neg hGC]

/-- Any sufficient fuel computes `parseGeometry`. -/
theorem parseGeometryF_eq_parseGeometry {n : Nat} {geom : Json} {datum : Datum}
    (h : geom.fuelSize ≤ n) :
    parseGeometryF n geom datum = parseGeometry geom datum :=
  parseGeometryF_fuel_irrel n geom.fuelSize geom datum h (le_refl _)

/-- C4: `parseCRS` maps exactly the strings "EPSG:4326", "WGS84", "WGS" to
the geographic tag and exactly "ENU", "ECEF" to the local tag, and every
other string fails with the unknown-CRS `std::runtime_error` naming that
string; the comparison is exact and case-sensitive (no normalization). -/
theorem parseCRS_table (s : String) :
    (parseCRS s = .ok CRS.WGS ↔ s = "EPSG:4326" ∨ s = "WGS84" ∨ s = "WGS")
    ∧ (parseCRS s = .ok CRS.ENU ↔ s = "ENU" ∨ s = "ECEF")
    ∧ (s ≠ "EPSG:4326" → s ≠ "WGS84" → s ≠ "WGS" → s ≠ "ENU" → s ≠ "ECEF" →
        parseCRS s = .error (.runtimeError ("Unknown CRS string: " ++ s))) := by
  by_cases h1 : s = "EPSG:4326" ∨ s = "WGS84" ∨ s = "WGS"
  · rcases h1 with h | h | h <;> subst h <;> decide
  · by_cases h2 : s = "ENU" ∨ s = "ECEF"
    · rcases h2 with h | h <;> subst h <;> decide
    · unfold parseCRS
      rw [if_neg h1, if_neg h2]
      push_neg at h1 h2
      refine ⟨?_, ?_, ?_⟩
      · simp [h1.1, h1.2.1, h1.2.2]
      · simp [h2.1, h2.2]
      · intro _ _ _ _ _
        rfl

/-- Witness for C4: the case variant "epsg:4326" is rejected with the exact
message, while two table rows decode to their tags. -/
theorem parseCRS_table_witness :
    parseCRS "epsg:4326" = .error (.runtimeError "Unknown CRS string: epsg:4326")
    ∧ parseCRS "WGS84" = .ok CRS.WGS
    ∧ parseCRS "ECEF" = .ok CRS.ENU :=
  ⟨(parseCRS_table "epsg:4326").2.2 (by decide) (by decide) (by decide)
      (by decide) (by decide),
   (parseCRS_table "WGS84").1.mpr (Or.inr (Or.inl rfl)),
   (parseCRS_table "ECEF").2.1.mpr (Or.inr rfl)⟩

/-- C5: the document normalizer passes a FeatureCollection-typed object
through unchanged, wraps a Feature-typed object as the sole entry of a
synthesized collection, wraps any other string-typed object as the geometry
of one synthesized empty-properties Feature, and fails (with the single
malformed-document message) exactly when the root is not an object, has no
`type` field, or its `type` is not a string. -/
theorem documentNormalizer_cases (j : Json) :
    (∀ t, j.find? "type" = some (.str t) →
        (t = "FeatureCollection" → op.ReadFeatureCollection j = .ok j)
      ∧ (t = "Feature" → op.ReadFeatureCollection j = .ok (featureWrap j))
      ∧ (t ≠ "FeatureCollection" → t ≠ "Feature" →
          op.ReadFeatureCollection j = .ok (geometryWrap j)))
    ∧ (op.ReadFeatureCollection j
        = .error (.runtimeError
            "geoson::ReadFeatureCollection(): top-level object has no string 'type' field")
        ↔ j.isObj = false ∨ j.find? "type" = none
          ∨ ∃ v, j.find? "type" = some v ∧ v.isStr = false)
    ∧ (∀ e, op.ReadFeatureCollection j = .error e →
        e = .runtimeError
          "geoson::ReadFeatureCollection(): top-level object has no string 'type' field") := by
  cases j with
  | obj o =>
    cases hf : o.find "type" with
    | none => simp [op.ReadFeatureCollection, Json.find?, Json.isObj, hf]
    | some v =>
      cases v with
      | str t =>
        by_cases h1 : t = "FeatureCollection"
        · subst h1
          simp [op.ReadFeatureCollection, Json.find?, Json.isObj, Json.isStr, hf]
        · by_cases h2 : t = "Feature"
          · subst h2
            simp [op.ReadFeatureCollection, Json.find?, Json.isObj, Json.isStr, hf,
              featureWrap]
          · simp [op.ReadFeatureCollection, Json.find?, Json.isObj, Json.isStr, hf,
              h1, h2, geometryWrap]
      | null => simp [op.ReadFeatureCollection, Json.find?, Json.isObj, Json.isStr, hf]
      | bool b => simp [op.ReadFeatureCollection, Json.find?, Json.isObj, Json.isStr, hf]
      | num q => simp [op.ReadFeatureCollection, Json.find?, Json.isObj, Json.isStr, hf]
      | arr a => simp [op.ReadFeatureCollection, Json.find?, Json.isObj, Json.isStr, hf]
      | obj o2 => simp [op.ReadFeatureCollection, Json.find?, Json.isObj, Json.isStr, hf]
  | null => simp [op.ReadFeatureCollection, Json.find?, Json.isObj]
  | bool b => simp [op.ReadFeatureCollection, Json.find?, Json.isObj]
  | num q => simp [op.ReadFeatureCollection, Json.find?, Json.isObj]
  | str s => simp [op.ReadFeatureCollection, Json.find?, Json.isObj]
  | arr a => simp [op.ReadFeatureCollection, Json.find?, Json.isObj]

/-- Witness for C5: the three legal root shapes normalize as stated and a
numeric root is rejected. -/
theorem documentNormalizer_cases_witness :
    op.ReadFeatureCollection rootFCDoc = .ok rootFCDoc
    ∧ op.ReadFeatureCollection rootFeatureDoc = .ok (featureWrap rootFeatureDoc)
    ∧ op.ReadFeatureCollection rootGeomDoc = .ok (geometryWrap rootGeomDoc)
    ∧ op.ReadFeatureCollection (.num 3)
        = .error (.runtimeError
            "geoson::ReadFeatureCollection(): top-level object has no string 'type' field") :=
  ⟨((documentNormalizer_cases rootFCDoc).1 "FeatureCollection" rfl).1 rfl,
   ((documentNormalizer_cases rootFeatureDoc).1 "Feature" rfl).2.1 rfl,
   ((documentNormalizer_cases rootGeomDoc).1 "Point" rfl).2.2 (by decide) (by decide),
   (documentNormalizer_cases (.num 3)).2.1.mpr (Or.inl rfl)⟩

/-- Sorted insertion leaves every other key's lookup unchanged. -/
theorem JsonObj.find_setSorted_ne :
    ∀ (o : JsonObj) {k k' : String} (v : Json), k' ≠ k →
      (o.setSorted k v).find k' = o.find k'
  | .nil, k, k', v, h => by
    simp [JsonObj.setSorted, JsonObj.find, Ne.symm h]
  | .cons k0 v0 rest, k, k', v, h => by
    rw [JsonObj.setSorted]
    by_cases h0 : k = k0
    · rw [if_pos h0, JsonObj.find, JsonObj.find, if_neg (Ne.symm h),
        if_neg (fun hh : k0 = k' => h ((h0.trans hh).symm))]
    · rw [if_neg h0]
      by_cases hlt : k < k0
      · rw [if_pos hlt, JsonObj.find, if_neg (Ne.symm h)]
      · rw [if_neg hlt, JsonObj.find, JsonObj.find]
        by_cases he : k0 = k'
        · rw [if_pos he, if_pos he]
        · rw [if_neg he, if_neg he]
          exact JsonObj.find_setSorted_ne rest v h

/-- Replacing the features content leaves every other field's lookup
unchanged. -/
theorem setFeatures_find_ne {j fs : Json} {k : String} (h : k ≠ "features") :
    (setFeatures j fs).find? k = j.find? k := by
  cases j <;> simp [setFeatures, Json.find?]
  exact JsonObj.find_setSorted_ne _ _ h

/-- A successful normalization always yields a FeatureCollection-typed
object. -/
theorem normalize_ok_type {j n : Json} (h : op.ReadFeatureCollection j = .ok n) :
    n.find? "type" = some (.str "FeatureCollection") ∧ n.isObj = true := by
  cases j with
  | obj o =>
    rw [op.ReadFeatureCollection] at h
    cases hf : o.find "type" with
    | none => simp only [hf] at h; exact Except.noConfusion h
    | some v =>
      cases v with
      | str t =>
        simp only [hf] at h
        by_cases h1 : t = "FeatureCollection"
        · rw [if_pos h1] at h
          cases h
          subst h1
          exact ⟨by simp [Json.find?, hf], rfl⟩
        · rw [if_neg h1] at h
          by_cases h2 : t = "Feature"
          · rw [if_pos h2] at h
            cases h
            exact ⟨by simp [Json.find?, JsonObj.find], rfl⟩
          · rw [if_neg h2] at h
            cases h
            exact ⟨by simp [Json.find?, JsonObj.find], rfl⟩
      | null => simp only [hf] at h; exact Except.noConfusion h
      | bool b => simp only [hf] at h; exact Except.noConfusion h
      | num q => simp only [hf] at h; exact Except.noConfusion h
      | arr a => simp only [hf] at h; exact Except.noConfusion h
      | obj o2 => simp only [hf] at h; exact Except.noConfusion h
  | null => cases h
  | bool b => cases h
  | num q => cases h
  | str s => cases h
  | arr a => cases h

/-- The header resolver only reads the `properties` field. -/
theorem headerResolve_congr {j j' : Json}
    (h : j.find? "properties" = j'.find? "properties") :
    headerResolve j = headerResolve j' := by
  rw [headerResolve, headerResolve, h]

/-- Normalization passes any FeatureCollection-typed object through, in
particular after its features were replaced. -/
theorem normalize_setFeatures {n : Json} (fs : Json)
    (ht : n.find? "type" = some (.str "FeatureCollection")) :
    op.ReadFeatureCollection (setFeatures n fs) = .ok (setFeatures n fs) := by
  cases n with
  | obj o =>
    have ht' : (setFeatures (Json.obj o) fs).find? "type" = some (.str "FeatureCollection") := by
      rw [setFeatures_find_ne (by decide)]
      exact ht
    rw [setFeatures] at ht' ⊢
    rw [Json.find?] at ht'
    simp only [op.ReadFeatureCollection, ht', if_pos]
  | null => simp [Json.find?] at ht
  | bool b => simp [Json.find?] at ht
  | num q => simp [Json.find?] at ht
  | str s => simp [Json.find?] at ht
  | arr a => simp [Json.find?] at ht

/-- A classified header defect makes the header resolver fail with exactly
that defect's message. -/
theorem headerResolve_defect {n : Json} {c : HeaderDefect}
    (h : headerDefectClass n = some c) :
    headerResolve n = .error (.runtimeError (headerMsg c)) := by
  rw [headerDefectClass] at h
  rw [headerResolve]
  cases hp : n.find? "properties" with
  | none => simp only [hp] at h ⊢; cases h; rfl
  | some pv =>
    cases pv with
    | obj P =>
      simp only [hp] at h ⊢
      cases hc : P.find "crs" with
      | none => simp only [hc] at h ⊢; cases h; rfl
      | some cv =>
        cases cv with
        | str crsS =>
          simp only [hc] at h ⊢
          cases hd : P.find "datum" with
          | none => simp only [hd] at h ⊢; cases h; rfl
          | some dv =>
            cases dv with
            | arr A =>
              simp only [hd] at h ⊢
              by_cases hl : A.length < 3
              · rw [if_pos hl] at h ⊢
                cases h
                rfl
              · rw [if_neg hl] at h ⊢
                cases hh : P.find "heading" with
                | none => simp only [hh] at h ⊢; cases h; rfl
                | some hv =>
                  cases hv with
                  | num yaw => simp only [hh] at h; cases h
                  | null => simp only [hh] at h ⊢; cases h; rfl
                  | bool b => simp only [hh] at h ⊢; cases h; rfl
                  | str s => simp only [hh] at h ⊢; cases h; rfl
                  | arr a2 => simp only [hh] at h ⊢; cases h; rfl
                  | obj o2 => simp only [hh] at h ⊢; cases h; rfl
            | null => simp only [hd] at h ⊢; cases h; rfl
            | bool b => simp only [hd] at h ⊢; cases h; rfl
            | num q => simp only [hd] at h ⊢; cases h; rfl
            | str s => simp only [hd] at h ⊢; cases h; rfl
            | obj o2 => simp only [hd] at h ⊢; cases h; rfl
        | null => simp only [hc] at h ⊢; cases h; rfl
        | bool b => simp only [hc] at h ⊢; cases h; rfl
        | num q => simp only [hc] at h ⊢; cases h; rfl
        | arr a2 => simp only [hc] at h ⊢; cases h; rfl
        | obj o2 => simp only [hc] at h ⊢; cases h; rfl
    | null => simp only [hp] at h ⊢; cases h; rfl
    | bool b => simp only [hp] at h ⊢; cases h; rfl
    | num q => simp only [hp] at h ⊢; cases h; rfl
    | str s => simp only [hp] at h ⊢; cases h; rfl
    | arr a2 => simp only [hp] at h ⊢; cases h; rfl

/-- C3: each header defect class (properties / crs / datum / heading, in the
source's precedence) makes the whole parse fail with its distinct, exact
`std::runtime_error` message, and the failure does not depend on the
features content at all — replacing the features with anything, even a
geometry that could not be decoded, yields the same header error, so the
parse aborts before any feature's geometry is decoded. -/
theorem headerDefect_aborts (j n fs : Json) (c : HeaderDefect)
    (h1 : op.ReadFeatureCollection j = .ok n)
    (h2 : headerDefectClass n = some c) :
    ReadFeatureCollection j = .error (.runtimeError (headerMsg c))
    ∧ ReadFeatureCollection (setFeatures n fs) = .error (.runtimeError (headerMsg c))
    ∧ List.Pairwise (fun a b => a ≠ b)
        [headerMsg .props, headerMsg .crs, headerMsg .datum, headerMsg .heading] := by
  have herr := headerResolve_defect h2
  have htype := normalize_ok_type h1
  refine ⟨?_, ?_, by decide⟩
  · rw [ReadFeatureCollection, h1]
    simp only [Except.bind]
    rw [herr]
  · rw [ReadFeatureCollection, normalize_setFeatures fs htype.1]
    simp only [Except.bind]
    rw [headerResolve_congr (setFeatures_find_ne (by decide))]
    rw [herr]

/-- Witness for C3: a header lacking `datum`, with the features replaced by
an undecodable geometry, still fails with exactly the datum message. -/
theorem headerDefect_aborts_witness :
    ReadFeatureCollection (setFeatures defectDoc defectFill)
      = .error (.runtimeError "'properties' missing array 'datum' of ≥3 numbers") :=
  (headerDefect_aborts defectDoc defectDoc defectFill .datum rfl rfl).2.1

/-- C6: a LineString coordinates value whose tuples all decode gives a
`Line` of the first and second decoded points (in order) when there are
exactly two of them, and a `Path` of all decoded points, in order, for any
other count. -/
theorem parseLineString_cases (coords : Json) (datum : Datum) (pts : List Point)
    (h : parsePoints coords.elements datum = .ok pts) :
    (∀ a b, pts = [a, b] → parseLineString coords datum = .ok (.line a b))
    ∧ (pts.length ≠ 2 → parseLineString coords datum = .ok (.path pts)) := by
  constructor
  · intro a b hab
    subst hab
    rw [parseLineString, h]
    rfl
  · intro hlen
    rw [parseLineString, h]
    cases pts with
    | nil => rfl
    | cons a rest =>
      cases rest with
      | nil => rfl
      | cons b rest2 =>
        cases rest2 with
        | nil => exact absurd rfl hlen
        | cons c rest3 => rfl

/-- Witness for C6: two tuples decode to a `Line`, three tuples to a
`Path`, preserving order. -/
theorem parseLineString_cases_witness :
    parseLineString lineCoords exDatum
      = .ok (.line (wgsToEnu ⟨2, 1, 0⟩ exDatum) (wgsToEnu ⟨4, 3, 0⟩ exDatum))
    ∧ parseLineString pathCoords exDatum
      = .ok (.path [wgsToEnu ⟨2, 1, 0⟩ exDatum, wgsToEnu ⟨4, 3, 0⟩ exDatum,
          wgsToEnu ⟨6, 5, 0⟩ exDatum]) :=
  ⟨(parseLineString_cases lineCoords exDatum
      [wgsToEnu ⟨2, 1, 0⟩ exDatum, wgsToEnu ⟨4, 3, 0⟩ exDatum] rfl).1 _ _ rfl,
   (parseLineString_cases pathCoords exDatum
      [wgsToEnu ⟨2, 1, 0⟩ exDatum, wgsToEnu ⟨4, 3, 0⟩ exDatum,
        wgsToEnu ⟨6, 5, 0⟩ exDatum] rfl).2 (by decide)⟩

/-- C7: a raw feature with null (or absent, which reads as null) geometry
contributes no output features; otherwise, when its geometry decodes to N
variants and its properties decode, exactly N features are emitted, each
carrying an identical copy of the flattened properties map. -/
theorem processFeature_fanout (feat g : Json) (datum : Datum)
    (h1 : jValueD feat "geometry" .null = .ok g) :
    (g = .null → processFeature feat datum = .ok [])
    ∧ (∀ gs props m, parseGeometry g datum = .ok gs →
        jValueD feat "properties" (.obj .nil) = .ok props →
        parseProperties props = .ok m →
        processFeature feat datum = .ok (gs.map fun gm => ⟨gm, m⟩)) := by
  constructor
  · intro hg
    subst hg
    rw [processFeature, h1]
    rfl
  · intro gs props m hgs hprops hm
    have hg : g.isNull = false := by
      cases g with
      | null => exact Except.noConfusion hgs
      | bool b => rfl
      | num q => rfl
      | str s => rfl
      | arr a => rfl
      | obj o => rfl
    rw [processFeature, h1]
    simp only [Except.bind, hg, Bool.false_eq_true, if_false]
    rw [hgs]
    simp only [Except.bind]
    rw [hprops]
    simp only [Except.bind]
    rw [hm]

/-- Witness for C7: a null-geometry feature is skipped, and a MultiPoint
with three tuples fans out into exactly three Point features sharing the
same properties map. -/
theorem processFeature_fanout_witness :
    processFeature skipFeat exDatum = .ok []
    ∧ processFeature fanFeat exDatum
      = .ok [⟨.point (wgsToEnu ⟨2, 1, 0⟩ exDatum), [("name", "fan")]⟩,
             ⟨.point (wgsToEnu ⟨4, 3, 0⟩ exDatum), [("name", "fan")]⟩,
             ⟨.point (wgsToEnu ⟨6, 5, 0⟩ exDatum), [("name", "fan")]⟩] :=
  ⟨(processFeature_fanout skipFeat .null exDatum rfl).1 rfl,
   (processFeature_fanout fanFeat fanGeom exDatum rfl).2
     [.point (wgsToEnu ⟨2, 1, 0⟩ exDatum), .point (wgsToEnu ⟨4, 3, 0⟩ exDatum),
       .point (wgsToEnu ⟨6, 5, 0⟩ exDatum)]
     (.obj (.cons "name" (.str "fan") .nil)) [("name", "fan")] rfl rfl rfl⟩

/-- C10: a document that normalizes to a FeatureCollection-typed object and
passes header resolution, but has no `features` key (which nlohmann reads
as null) or a null `features`, decodes successfully to a collection with an
empty feature sequence. -/
theorem readFC_no_features (n : Json) (crs : CRS) (d : Datum) (e : Euler)
    (h1 : n.find? "type" = some (.str "FeatureCollection"))
    (h2 : headerResolve n = .ok (crs, d, e))
    (h3 : (n.find? "features").getD .null = .null) :
    ReadFeatureCollection n = .ok ⟨crs, d, e, []⟩ := by
  have hn : op.ReadFeatureCollection n = .ok n := by
    cases n with
    | obj o =>
      rw [Json.find?] at h1
      simp only [op.ReadFeatureCollection, h1, if_pos]
    | null => simp [Json.find?] at h1
    | bool b => simp [Json.find?] at h1
    | num q => simp [Json.find?] at h1
    | str s => simp [Json.find?] at h1
    | arr a => simp [Json.find?] at h1
  rw [ReadFeatureCollection, hn]
  simp only [Except.bind]
  rw [h2]
  simp only [Except.bind]
  rw [h3]
  rfl

/-- Witness for C10: a header-only document (no `features` key at all)
decodes to the empty collection. -/
theorem readFC_no_features_witness :
    ReadFeatureCollection emptyDoc = .ok ⟨.ENU, ⟨1, 2, 3⟩, ⟨0, 0, 5⟩, []⟩ :=
  readFC_no_features emptyDoc .ENU ⟨1, 2, 3⟩ ⟨0, 0, 5⟩ rfl rfl rfl

/-- C8: the two write entry points — `write(fc, path)` encodes with the
collection's stored CRS tag (its serialization equals the explicit-flavor
serialization at `fc.crs`), `write(fc, path, flavor)` encodes with the
explicitly requested flavor — and each fails with the exact cannot-open
`std::runtime_error` precisely when the destination cannot be opened. -/
theorem write_entry_points (fc : FeatureCollection) (outPath : String) (flavor : CRS) :
    write fc outPath true = .ok (toJson fc)
    ∧ writeWith fc outPath flavor true = .ok (toJsonWith fc flavor)
    ∧ write fc outPath false
        = .error (.runtimeError ("Cannot open for write: " ++ outPath))
    ∧ writeWith fc outPath flavor false
        = .error (.runtimeError ("Cannot open for write: " ++ outPath))
    ∧ toJson fc = toJsonWith fc fc.crs :=
  ⟨rfl, rfl, rfl, rfl, rfl⟩

/-- Counterexample for C9: two documents differing only in a feature's
`id` field decode to identical in-memory collections, and that common model
(`idFC`, built from `Feature` of types.hpp) holds no id at all — so the id
is not captured as its JSON text form (nor in any other form). -/
theorem idField_not_captured :
    ReadFeatureCollection idDoc = ReadFeatureCollection noIdDoc
    ∧ ReadFeatureCollection idDoc = .ok idFC :=
  ⟨rfl, rfl⟩

/-- C9 (as amended): the optional `id` field of a raw feature is ignored
entirely by decoding — adding an `id` entry to a feature object changes
nothing in the decoded output — and the writer never emits an `id` field. -/
theorem idField_ignored (v : Json) (o : JsonObj) (datum : Datum)
    (f : Feature) (d2 : Datum) (crs : CRS) :
    processFeature (.obj (.cons "id" v o)) datum = processFeature (.obj o) datum
    ∧ (featureToJson f d2 crs).find? "id" = none :=
  ⟨rfl, rfl⟩

/-- C1: decoding `crossDoc`, re-encoding the model once with WGS flavor and
once with ENU flavor, and re-decoding each output does NOT yield matching
local-frame coordinates: the decoder always interprets coordinate tuples as
geographic lon/lat/alt (parsePoint, parser.hpp 61-66) and never consults
the collection's CRS tag, so the ENU-flavored output is re-projected as if
it were in degrees; the re-decoded models differ by kilometres, far beyond
the 1e-10 tolerance asserted by the spec and by
test_crs_conversion.cpp 58-67. -/
theorem crossFlavor_diverges :
    ReadFeatureCollection crossDoc = .ok crossFC
    ∧ ReadFeatureCollection (toJsonWith crossFC .WGS) = .ok crossFC
    ∧ ReadFeatureCollection (toJsonWith crossFC .ENU) = .ok crossFCEnu
    ∧ ¬ coordsWithin (1 / 10 ^ 10) crossFC crossFCEnu := by
  have e1 : ReadFeatureCollection crossDoc
      = .ok ⟨.WGS, ⟨52, 5, 100⟩, ⟨0, 0, 0⟩,
          [⟨.point (wgsToEnu ⟨52, 5, 100⟩ ⟨52, 5, 100⟩), []⟩]⟩ := rfl
  have hfc : ReadFeatureCollection crossDoc = .ok crossFC := by
    rw [e1]
    norm_num [crossFC, wgsToEnu]
  have hjW : toJsonWith crossFC .WGS = crossDoc := by
    norm_num [toJsonWith, crossFC, crossDoc, featureToJson, geometryToJson, ptCoords,
      enuToWgs, propsToJson, crsString, JsonArr.ofList]
  have e3 : ReadFeatureCollection (toJsonWith crossFC .ENU)
      = .ok ⟨.ENU, ⟨52, 5, 100⟩, ⟨0, 0, 0⟩,
          [⟨.point (wgsToEnu ⟨0, 0, 0⟩ ⟨52, 5, 100⟩), []⟩]⟩ := rfl
  refine ⟨hfc, ?_, ?_, ?_⟩
  · rw [hjW]
    exact hfc
  · rw [e3]
    norm_num [crossFCEnu, wgsToEnu]
  · norm_num [coordsWithin, crossFC, crossFCEnu, geomPoints, pointWithin,
      List.forall₂_cons]

/-- C2: decoding `enuDoc`, encoding the model with the default write entry
point (which uses the stored ENU flavor tag), and decoding that output
again yields local coordinates shifted by the whole datum offset instead of
the original decoded coordinates: the decoder re-projects the emitted local
x/y/z as if they were geographic lon/lat/alt, so the ENU round trip misses
the 1e-10 tolerance by kilometres. -/
theorem enuRoundTrip_diverges :
    ReadFeatureCollection enuDoc = .ok enuFC
    ∧ WriteFeatureCollection enuFC "out.geojson" true = .ok (toJson enuFC)
    ∧ ReadFeatureCollection (toJson enuFC) = .ok enuFCBack
    ∧ ¬ coordsWithin (1 / 10 ^ 10) enuFC enuFCBack := by
  have e1 : ReadFeatureCollection enuDoc
      = .ok ⟨.ENU, ⟨40, 10, 0⟩, ⟨0, 0, 2⟩,
          [⟨.point (wgsToEnu ⟨41, 11, 7⟩ ⟨40, 10, 0⟩), []⟩]⟩ := rfl
  have e2 : ReadFeatureCollection (toJson enuFC)
      = .ok ⟨.ENU, ⟨40, 10, 0⟩, ⟨0, 0, 2⟩,
          [⟨.point (wgsToEnu ⟨1, 1, 7⟩ ⟨40, 10, 0⟩), []⟩]⟩ := rfl
  refine ⟨?_, rfl, ?_, ?_⟩
  · rw [e1]
    norm_num [enuFC, wgsToEnu]
  · rw [e2]
    norm_num [enuFCBack, wgsToEnu]
  · norm_num [coordsWithin, enuFC, enuFCBack, geomPoints, pointWithin,
      List.forall₂_cons]

end geoson
